import Mathlib

/-!
Verification development for the whatsapp-service repository.

The definitions below are a shallow embedding of the two core pipelines of
the service:

* the outbound delivery loop in `src/server.js` (the `setInterval` polling
  loop over `/respuestas`, with its self-healing cleanup, in-memory dedup
  set `processedResponses`, validity check, startup-time guard, `enviado`
  transaction claim, routing resolution, `retryWithBackoff` send, and the
  `finally` cleanup), and

* the inbound enrichment pieces: the `/webhook/evolution` handler (modelled
  as the ordered trace of its externally visible actions) and the 60-second
  identity cache `enrichWhatsAppPayload` in `lookupCache.js` (the variant
  with the phone-number fallback, which is the one the repository ships).

Firebase is modelled as path-addressed maps; JavaScript values that the code
inspects dynamically (the `text` field of a pending response) are modelled by
`JVal`; machine time is `Nat` milliseconds.
-/

namespace WhatsappService

/-- A dynamically typed JavaScript value, as far as the delivery loop
inspects one: the loop only ever asks whether `response.text` is a truthy
string (`!text || typeof text !== 'string'`). -/
inductive JVal where
  | str (s : String)
  | num (n : Int)
  | boolV (b : Bool)
  | nullV
deriving DecidableEq, Repr

/-- JS `s.startsWith(pre)`, written over character lists so that concrete
instances reduce in the kernel. -/
def jsStartsWith (s pre : String) : Bool :=
  pre.data.isPrefixOf s.data

/-- The usable text body of a pending response: the loop deletes the entry
unless `text` is a truthy string (`if (!text || typeof text !== 'string')`
in `server.js`), i.e. a non-empty string. -/
def textUsable : Option JVal → Option String
  | some (JVal.str s) => if s = "" then none else some s
  | _ => none

/-- A path `slug/chatId/responseId` under `/respuestas`. -/
structure RPath where
  slug : String
  chatId : String
  responseId : String
deriving DecidableEq, Repr

/-- A pending response entry as the loop reads it: the `enviado` claim flag
(absent when the producer never set it), the `text` body (an arbitrary JS
value), and the creation timestamp `ts` (absent treated as `0` by
`response.ts || 0`). -/
structure RespEntry where
  enviado : Option Bool
  text : Option JVal
  ts : Option Nat
deriving DecidableEq, Repr

/-- The store paths consulted by the routing-resolution step of the loop:
`/chat_instances/{slug}/{chatId}`, `/evolution_instances/{instanceName}`,
`/tiendas_por_slug/{slug}` and `/tiendas/{tiendaId}/evolution` (the latter
supplying an optional `instanceName` and optional `apiKey`). -/
structure RoutingStore where
  chatInstances : String → String → Option String
  evolutionInstances : String → Option String
  tiendasPorSlug : String → Option String
  tiendasEvolution : String → Option (Option String × Option String)

/-- Routing resolution exactly as in the loop body: first the
conversation-to-channel binding (`chat_instances` then `evolution_instances`
for the api key), and if that leaves `instanceName` unset, the tenant's
primary channel via `tiendas_por_slug` and `tiendas/{id}/evolution`.  The
send runs only when both an instance name and an api key were found
(`if (instanceName && apiKey)`). -/
def resolveRouting (rs : RoutingStore) (slug chatId : String) : Option (String × String) :=
  let fromChat : Option (String × String) :=
    match rs.chatInstances slug chatId with
    | some mapped =>
      match rs.evolutionInstances mapped with
      | some key => some (mapped, key)
      | none => none
    | none => none
  match fromChat with
  | some r => some r
  | none =>
    match rs.tiendasPorSlug slug with
    | some tiendaId =>
      match rs.tiendasEvolution tiendaId with
      | some (some inst, some key) => some (inst, key)
      | some _ => none
      | none => none
    | none => none

/-- One run of `retryWithBackoff(fn, maxRetries, delayMs)` from `server.js`,
driven by an oracle `gw` telling whether the `attempt`-th call of `fn`
succeeds.  Returns the list of call outcomes in order, the list of backoff
delays actually awaited (the code computes `delayMs * Math.pow(2, attempt-1)`
after a failed non-final attempt), and whether the run as a whole succeeded
(`false` models the final failure being rethrown).  The `fuel` argument is
`maxRetries - attempt + 1` and only drives termination. -/
def retryAux (gw : Nat → Bool) (maxRetries delayMs : Nat) : Nat → Nat → List Bool × List Nat × Bool
  | _, 0 => ([], [], false)
  | attempt, fuel + 1 =>
    if gw attempt then ([true], [], true)
    else if attempt = maxRetries then ([false], [], false)
    else
      let rest := retryAux gw maxRetries delayMs (attempt + 1) fuel
      (false :: rest.1, delayMs * 2 ^ (attempt - 1) :: rest.2.1, rest.2.2)

/-- `retryWithBackoff` started at attempt 1, as the loop calls it with
`maxRetries = 3`, `delayMs = 1000`. -/
def retryWithBackoff (gw : Nat → Bool) (maxRetries delayMs : Nat) : List Bool × List Nat × Bool :=
  retryAux gw maxRetries delayMs 1 maxRetries

/-- Environment of one delivery-loop process: `startup` is
`serviceStartupTime`; `rs` the routing portion of the store; `claimWins p`
is the outcome of the Firebase transaction on `enviado` at path `p` (the
callback commits `true` exactly when the prior live value was not `true`;
`fun _ => true` models a single instance with no interference, `false`
models another instance having claimed first); `gateway p k` tells whether
the `k`-th `sendText` attempt for `p` succeeds. -/
structure LoopEnv where
  startup : Nat
  rs : RoutingStore
  claimWins : RPath → Bool
  gateway : RPath → Nat → Bool

/-- Mutable state of one process: the live `/respuestas` subtree, the
process-local `processedResponses` set, and the log of gateway `sendText`
calls made so far (path and success of each call). -/
structure LoopState where
  store : List (RPath × RespEntry)
  dedup : List RPath
  sends : List (RPath × Bool)
deriving DecidableEq, Repr

/-- Deleting `/respuestas/{p}` (`responseRef.remove()`). -/
def removePath (s : List (RPath × RespEntry)) (p : RPath) : List (RPath × RespEntry) :=
  s.filter (fun q => q.1 != p)

/-- `processedResponses.delete(path)`. -/
def dedupErase (d : List RPath) (p : RPath) : List RPath :=
  d.filter (fun q => q != p)

/-- Whether the live store still holds an entry at `p`. -/
def hasEntry (s : List (RPath × RespEntry)) (p : RPath) : Bool :=
  s.any (fun q => q.1 == p)

/-- Number of gateway `sendText` calls recorded for path `p`. -/
def sendCount (st : LoopState) (p : RPath) : Nat :=
  st.sends.countP (fun sb => sb.1 == p)

/-- Processing of a single snapshot entry by the loop body, in source order:
(a) self-healing cleanup of `enviado === true` entries; (b) the
`processedResponses` dedup check and add; (c) the text validity check;
(d) the startup-time guard `response.ts || 0 < serviceStartupTime`; (e) the
transaction claim; then routing resolution, the guarded `retryWithBackoff`
send, and the unconditional `finally` cleanup (modelled by performing the
deletion and the dedup removal on every path out of the claimed region,
whether the send succeeded, failed all retries, or no routing resolved). -/
def stepEntry (env : LoopEnv) (st : LoopState) (p : RPath) (e : RespEntry) : LoopState :=
  if e.enviado = some true then
    { st with store := removePath st.store p, dedup := dedupErase st.dedup p }
  else if p ∈ st.dedup then
    st
  else
    let st1 : LoopState := { st with dedup := p :: st.dedup }
    match textUsable e.text with
    | none => { st1 with store := removePath st1.store p }
    | some _ =>
      if e.ts.getD 0 < env.startup then
        { st1 with store := removePath st1.store p }
      else if env.claimWins p then
        let st2 : LoopState :=
          match resolveRouting env.rs p.slug p.chatId with
          | some _ =>
            { st1 with
                sends := st1.sends ++
                  ((retryWithBackoff (env.gateway p) 3 1000).1.map (fun b => (p, b))) }
          | none => st1
        { st2 with store := removePath st2.store p, dedup := dedupErase st2.dedup p }
      else
        st1

/-- The scan over a snapshot: entries are visited in snapshot order and only
chats whose id starts with `web_` are processed (`if (!chatId.startsWith
('web_')) continue`). -/
def tickGo (env : LoopEnv) : List (RPath × RespEntry) → LoopState → LoopState
  | [], st => st
  | pe :: rest, st =>
    tickGo env rest (if jsStartsWith pe.1.chatId "web_" then stepEntry env st pe.1 pe.2 else st)

/-- One tick of the polling loop: take a one-shot snapshot of `/respuestas`
(`respuestasRef.once('value')`) and process every leaf entry of it. -/
def tick (env : LoopEnv) (st : LoopState) : LoopState :=
  tickGo env st.store st

/-- Paths of a snapshot are pairwise distinct (true of any real Firebase
subtree read, where each path holds at most one node). -/
abbrev pathsNodup (s : List (RPath × RespEntry)) : Prop :=
  (s.map Prod.fst).Nodup

/-- The transaction callback of the claim step together with Firebase's
commit semantics: `(currentValue) => { if (currentValue === true) return;
return true; }` — returning `undefined` aborts, so the transaction commits
(writing `true`) exactly when the prior value was absent or not `true`. -/
def claimTransaction (current : Option Bool) : Option Bool × Bool :=
  if current = some true then (current, false) else (some true, true)

/-- N delivery-loop instances racing on one pending entry, serialised at the
atomic transaction (Firebase transactions on a single location serialise).
Each instance is represented by its gateway oracle; the instance whose
transaction commits runs the loop's `retryWithBackoff` send, an instance
whose transaction aborts skips the entry without any gateway call.  Returns
the final flag value and, per instance in order, the list of gateway
`sendText` call outcomes it performed for the entry. -/
def runDeliveryRace : Option Bool → List (Nat → Bool) → Option Bool × List (List Bool)
  | v, [] => (v, [])
  | v, gw :: rest =>
    let c := claimTransaction v
    let out := runDeliveryRace c.1 rest
    (out.1, (if c.2 then (retryWithBackoff gw 3 1000).1 else []) :: out.2)

/-- An entry of the process-local identity cache in `lookupCache.js`:
`{ tiendaId, usuarioId, slug, sessionStartTs, expires }` (both ids can be
`null`, modelled by `none`). -/
structure CacheEntry where
  tiendaId : Option String
  usuarioId : Option String
  slug : String
  sessionStartTs : Nat
  expires : Nat
deriving DecidableEq, Repr

/-- A `/sesiones_index/{tiendaId}/{usuarioId}` node; its `sessionStartTs`
field may be missing (and a stored `0` is falsy, so the code's
`sessionSnap.val().sessionStartTs || sessionStartTs` falls back to the
default in both cases). -/
structure SessionEntry where
  sessionStartTs : Option Nat
deriving DecidableEq, Repr

/-- The store paths the identity cache resolves from on a miss:
`/tiendas_por_slug/{slug}`, `/usuarios_por_identidad/{chatId}`,
`/usuarios_por_telefono/{normalizedPhone}` and
`/sesiones_index/{tiendaId}/{usuarioId}` (the first key of `sesionesIndex`
is the possibly-null tienda id the code interpolates into the path). -/
structure LookupStore where
  tiendasPorSlug : String → Option String
  usuariosPorIdentidad : String → Option String
  usuariosPorTelefono : String → Option String
  sesionesIndex : Option String → String → Option SessionEntry

/-- The payload fields `enrichWhatsAppPayload` reads or writes.  In the base
payload built by the webhook handler the `usuarioId` and `expires` keys are
absent (`none` at the outer option); `Object.assign(payload, cached)` on a
cache hit copies them from the cached entry, so a cached null user id shows
up as `some none`. -/
structure EnrichPayload where
  chatId : String
  tiendaSlug : String
  telefono : Option String
  tiendaId : Option String
  usuarioId : Option (Option String)
  slugField : String
  profileReady : Bool
  firstInSession : Bool
  sessionStartTs : Nat
  expiresField : Option Nat
  metaProfileReady : Bool
  metaFirstInSession : Bool
deriving DecidableEq, Repr

/-- `normalizePhone` from `lookupCache.js`: null/empty phones give `null`;
otherwise keep the digits only and prepend `+`. -/
def normalizePhone : Option String → Option String
  | none => none
  | some p =>
    if p = "" then none
    else some ("+" ++ String.mk (p.data.filter Char.isDigit))

/-- `cache.get(chatId)` over the associative-list model of the `Map`. -/
def cacheLookup (cache : List (String × CacheEntry)) (chatId : String) : Option CacheEntry :=
  match cache.find? (fun kv => kv.1 == chatId) with
  | some kv => some kv.2
  | none => none

/-- `cache.set(chatId, entry)`: unconditional overwrite of the key. -/
def cacheSet (cache : List (String × CacheEntry)) (chatId : String) (e : CacheEntry) :
    List (String × CacheEntry) :=
  (chatId, e) :: cache.filter (fun kv => kv.1 != chatId)

/-- The cache-miss path of `enrichWhatsAppPayload`: parallel lookups of the
tienda id by slug and the user id by conversation identity, the
phone-number fallback when the identity lookup misses and a phone was
supplied, the session-index lookup deciding `firstInSession` and
`sessionStartTs`, the `cache.set` with absolute expiry `now + 60_000`, and
the payload injection.  (`Date.now()` is read again for the default session
start; both reads are modelled by the same instant `now`.) -/
def enrichMiss (store : LookupStore) (cache : List (String × CacheEntry))
    (now : Nat) (payload : EnrichPayload) : EnrichPayload × List (String × CacheEntry) :=
  let tiendaId := store.tiendasPorSlug payload.tiendaSlug
  let usuarioId :=
    match store.usuariosPorIdentidad payload.chatId with
    | some u => some u
    | none =>
      match normalizePhone payload.telefono with
      | some np => store.usuariosPorTelefono np
      | none => none
  let profileReady := usuarioId.isSome
  let sessResult : Bool × Nat :=
    match usuarioId with
    | some uid =>
      match store.sesionesIndex tiendaId uid with
      | some sess =>
        (false,
          match sess.sessionStartTs with
          | some v => if v = 0 then now else v
          | none => now)
      | none => (true, now)
    | none => (true, now)
  let entry : CacheEntry :=
    { tiendaId := tiendaId, usuarioId := usuarioId, slug := payload.tiendaSlug,
      sessionStartTs := sessResult.2, expires := now + 60000 }
  ({ payload with
      tiendaId := tiendaId
      profileReady := profileReady
      firstInSession := sessResult.1
      sessionStartTs := sessResult.2
      metaProfileReady := profileReady
      metaFirstInSession := sessResult.1 },
   cacheSet cache payload.chatId entry)

/-- `enrichWhatsAppPayload` from `lookupCache.js` (the shipped variant with
the phone fallback): if a live entry exists (`cached.expires > now`), copy
it onto the payload (`Object.assign`) and force `profileReady = true`,
`firstInSession = false` without touching the store or the cache; otherwise
run the miss path. -/
def enrichWhatsAppPayload (store : LookupStore) (cache : List (String × CacheEntry))
    (now : Nat) (payload : EnrichPayload) : EnrichPayload × List (String × CacheEntry) :=
  match cacheLookup cache payload.chatId with
  | some cached =>
    if now < cached.expires then
      ({ payload with
          tiendaId := cached.tiendaId
          usuarioId := some cached.usuarioId
          slugField := cached.slug
          sessionStartTs := cached.sessionStartTs
          expiresField := some cached.expires
          profileReady := true
          firstInSession := false
          metaProfileReady := true
          metaFirstInSession := false }, cache)
    else enrichMiss store cache now payload
  | none => enrichMiss store cache now payload

/-- Externally visible actions of the `/webhook/evolution` handler, in the
order the handler performs them. -/
inductive WAction where
  | mediaConfigLookup
  | mediaDownload
  | slugLookup
  | respond (status : Nat)
  | bindingWrite
  | enrich
  | appendMessage
  | logError
deriving DecidableEq, Repr

/-- The inbound webhook body fields the handler branches on. -/
structure WebhookEvent where
  eventType : String
  fromMe : Bool
  remoteJid : Option String
  conversationText : Option String
  extendedText : Option String
  hasAudio : Bool
deriving DecidableEq, Repr

/-- Where the fire-and-forget enrichment work after the acknowledgement can
fail (the binding write, the identity-cache resolve, or the message-log
append throwing). -/
inductive BgFail where
  | atBinding
  | atEnrich
  | atAppend
deriving DecidableEq, Repr

/-- JS `a || b || ''` over two optional strings (empty strings are falsy). -/
def jsOr (a b : Option String) : String :=
  match a with
  | some s => if s = "" then (match b with | some t => t | none => "") else s
  | none => match b with | some t => t | none => ""

/-- JS `!text.trim()`: the text is blank (empty or whitespace only). -/
def blankText (s : String) : Bool :=
  s.data.all (fun c => c == ' ' || c == '\t' || c == '\n' || c == '\r')

/-- The background actions after the acknowledgement: the
conversation-to-channel binding write, the cache-backed enrichment and the
message-log append, truncated at the first failing step, which is logged
(`logger.error`) and — because `res.headersSent` is now true — never
answered to the caller. -/
def bgActions : Option BgFail → List WAction
  | none => [WAction.bindingWrite, WAction.enrich, WAction.appendMessage]
  | some BgFail.atBinding => [WAction.logError]
  | some BgFail.atEnrich => [WAction.bindingWrite, WAction.logError]
  | some BgFail.atAppend => [WAction.bindingWrite, WAction.enrich, WAction.logError]

/-- The ordered action trace of one `/webhook/evolution` call, following the
handler's source order: non-upsert events, own messages and blank texts are
acknowledged and dropped; a missing `remoteJid` is a 400; audio messages
fetch the channel credential and the media before anything else; the tenant
slug is resolved from `/evolution_instances/{instance}` and only then is the
HTTP 200 acknowledgement sent, after which the background steps run. -/
def webhookTrace (ev : WebhookEvent) (fail : Option BgFail) : List WAction :=
  if ev.eventType != "messages.upsert" then [WAction.respond 200]
  else if ev.fromMe then [WAction.respond 200]
  else
    match ev.remoteJid with
    | none => [WAction.respond 400]
    | some _ =>
      if ev.hasAudio then
        [WAction.mediaConfigLookup, WAction.mediaDownload, WAction.slugLookup,
          WAction.respond 200] ++ bgActions fail
      else if blankText (jsOr ev.conversationText ev.extendedText) then
        [WAction.respond 200]
      else
        [WAction.slugLookup, WAction.respond 200] ++ bgActions fail

/-- Index of the first occurrence of `a` in the trace (`length` if absent). -/
def firstIdx (a : WAction) (tr : List WAction) : Nat :=
  tr.findIdx (fun x => x == a)

/-- `a`'s first occurrence is strictly before `b`'s. -/
abbrev occursBefore (a b : WAction) (tr : List WAction) : Prop :=
  firstIdx a tr < firstIdx b tr

/-- Recogniser for HTTP-response actions of any status. -/
def isRespond : WAction → Bool
  | WAction.respond _ => true
  | _ => false

/-- An inbound event the handler accepts for processing: a
`messages.upsert` event, not self-sent, with a conversation id, carrying
audio or a non-blank text. -/
def accepted (ev : WebhookEvent) : Prop :=
  ev.eventType = "messages.upsert" ∧ ev.fromMe = false ∧ ev.remoteJid.isSome = true ∧
    (ev.hasAudio = true ∨ blankText (jsOr ev.conversationText ev.extendedText) = false)

theorem hasEntry_removePath_self (s : List (RPath × RespEntry)) (p : RPath) :
    hasEntry (removePath s p) p = false := by
  simp only [hasEntry, removePath, List.any_eq_false, beq_iff_eq, List.mem_filter, bne_iff_ne]
  intro x hx
  exact hx.2

theorem hasEntry_removePath_other (s : List (RPath × RespEntry)) (p q : RPath) (h : q ≠ p) :
    hasEntry (removePath s p) q = hasEntry s q := by
  cases hE : hasEntry s q with
  | false =>
    simp only [hasEntry, List.any_eq_false, beq_iff_eq] at hE
    simp only [hasEntry, removePath, List.any_eq_false, beq_iff_eq, List.mem_filter]
    intro x hx
    exact hE x hx.1
  | true =>
    simp only [hasEntry, removePath, List.any_eq_true, beq_iff_eq, List.mem_filter] at hE ⊢
    obtain ⟨x, hx, hx1⟩ := hE
    exact ⟨x, ⟨hx, by simp [hx1, h]⟩, hx1⟩

theorem hasEntry_removePath_mono (s : List (RPath × RespEntry)) (p q : RPath) :
    hasEntry s q = false → hasEntry (removePath s p) q = false := by
  intro h
  by_cases hq : q = p
  · subst hq; exact hasEntry_removePath_self s q
  · rw [hasEntry_removePath_other s p q hq]; exact h

theorem mem_dedupErase_other (d : List RPath) (p q : RPath) (h : q ≠ p) :
    q ∈ dedupErase d p ↔ q ∈ d := by
  simp [dedupErase, List.mem_filter, h]

theorem not_mem_dedupErase_self (d : List RPath) (p : RPath) :
    p ∉ dedupErase d p := by
  simp [dedupErase, List.mem_filter]

theorem countP_map_pair (calls : List Bool) (p q : RPath) (h : q ≠ p) :
    ((calls.map (fun b => (p, b))).countP (fun sb => sb.1 == q)) = 0 := by
  induction calls with
  | nil => rfl
  | cons c t ih =>
    have hpq : (p == q) = false := by
      simp; exact fun hh => h hh.symm
    simp [List.countP_cons, hpq, ih]

theorem stepEntry_store_other (env : LoopEnv) (st : LoopState) (p q : RPath) (e : RespEntry)
    (h : q ≠ p) : hasEntry (stepEntry env st p e).store q = hasEntry st.store q := by
  by_cases he : e.enviado = some true
  · simp [stepEntry, he, hasEntry_removePath_other _ _ _ h]
  · by_cases hd : p ∈ st.dedup
    · simp [stepEntry, he, hd]
    · cases htext : textUsable e.text with
      | none => simp [stepEntry, he, hd, htext, hasEntry_removePath_other _ _ _ h]
      | some t =>
        by_cases hts : e.ts.getD 0 < env.startup
        · simp [stepEntry, he, hd, htext, hts, hasEntry_removePath_other _ _ _ h]
        · by_cases hc : env.claimWins p
          · cases hr : resolveRouting env.rs p.slug p.chatId <;>
              simp [stepEntry, he, hd, htext, hts, hc, hr, hasEntry_removePath_other _ _ _ h]
          · simp [stepEntry, he, hd, htext, hts, hc]

theorem stepEntry_dedup_other (env : LoopEnv) (st : LoopState) (p q : RPath) (e : RespEntry)
    (h : q ≠ p) : q ∈ (stepEntry env st p e).dedup ↔ q ∈ st.dedup := by
  by_cases he : e.enviado = some true
  · simp [stepEntry, he, mem_dedupErase_other _ _ _ h]
  · by_cases hd : p ∈ st.dedup
    · simp [stepEntry, he, hd]
    · cases htext : textUsable e.text with
      | none => simp [stepEntry, he, hd, htext, h]
      | some t =>
        by_cases hts : e.ts.getD 0 < env.startup
        · simp [stepEntry, he, hd, htext, hts, h]
        · by_cases hc : env.claimWins p
          · cases hr : resolveRouting env.rs p.slug p.chatId <;>
              simp [stepEntry, he, hd, htext, hts, hc, hr, dedupErase, List.mem_filter, h]
          · simp [stepEntry, he, hd, htext, hts, hc, h]

theorem stepEntry_sendCount_other (env : LoopEnv) (st : LoopState) (p q : RPath) (e : RespEntry)
    (h : q ≠ p) : sendCount (stepEntry env st p e) q = sendCount st q := by
  by_cases he : e.enviado = some true
  · simp [stepEntry, he, sendCount]
  · by_cases hd : p ∈ st.dedup
    · simp [stepEntry, he, hd]
    · cases htext : textUsable e.text with
      | none => simp [stepEntry, he, hd, htext, sendCount]
      | some t =>
        by_cases hts : e.ts.getD 0 < env.startup
        · simp [stepEntry, he, hd, htext, hts, sendCount]
        · by_cases hc : env.claimWins p
          · cases hr : resolveRouting env.rs p.slug p.chatId <;>
              simp [stepEntry, he, hd, htext, hts, hc, hr, sendCount, List.countP_append,
                countP_map_pair _ _ _ h]
          · simp [stepEntry, he, hd, htext, hts, hc, sendCount]

theorem stepEntry_store_shrink (env : LoopEnv) (st : LoopState) (p q : RPath) (e : RespEntry)
    (h : hasEntry st.store q = false) : hasEntry (stepEntry env st p e).store q = false := by
  by_cases he : e.enviado = some true
  · simp [stepEntry, he, hasEntry_removePath_mono _ _ _ h]
  · by_cases hd : p ∈ st.dedup
    · simp [stepEntry, he, hd, h]
    · cases htext : textUsable e.text with
      | none => simp [stepEntry, he, hd, htext, hasEntry_removePath_mono _ _ _ h]
      | some t =>
        by_cases hts : e.ts.getD 0 < env.startup
        · simp [stepEntry, he, hd, htext, hts, hasEntry_removePath_mono _ _ _ h]
        · by_cases hc : env.claimWins p
          · cases hr : resolveRouting env.rs p.slug p.chatId <;>
              simp [stepEntry, he, hd, htext, hts, hc, hr, hasEntry_removePath_mono _ _ _ h]
          · simp [stepEntry, he, hd, htext, hts, hc, h]

theorem stepEntry_deletes (env : LoopEnv) (st : LoopState) (p : RPath) (e : RespEntry)
    (hd : p ∉ st.dedup) (hc : env.claimWins p = true) :
    hasEntry (stepEntry env st p e).store p = false := by
  by_cases he : e.enviado = some true
  · simp [stepEntry, he, hasEntry_removePath_self]
  · cases htext : textUsable e.text with
    | none => simp [stepEntry, he, hd, htext, hasEntry_removePath_self]
    | some t =>
      by_cases hts : e.ts.getD 0 < env.startup
      · simp [stepEntry, he, hd, htext, hts, hasEntry_removePath_self]
      · cases hr : resolveRouting env.rs p.slug p.chatId <;>
          simp [stepEntry, he, hd, htext, hts, hc, hr, hasEntry_removePath_self]

theorem stepEntry_invalid_deletes (env : LoopEnv) (st : LoopState) (p : RPath) (e : RespEntry)
    (hd : p ∉ st.dedup) (ht : textUsable e.text = none) :
    hasEntry (stepEntry env st p e).store p = false ∧
      sendCount (stepEntry env st p e) p = sendCount st p := by
  by_cases he : e.enviado = some true
  · simp [stepEntry, he, hasEntry_removePath_self, sendCount]
  · simp [stepEntry, he, hd, ht, hasEntry_removePath_self, sendCount]

theorem stepEntry_stale_deletes (env : LoopEnv) (st : LoopState) (p : RPath) (e : RespEntry)
    (hd : p ∉ st.dedup) (hts : e.ts.getD 0 < env.startup) :
    hasEntry (stepEntry env st p e).store p = false ∧
      sendCount (stepEntry env st p e) p = sendCount st p := by
  by_cases he : e.enviado = some true
  · simp [stepEntry, he, hasEntry_removePath_self, sendCount]
  · cases htext : textUsable e.text with
    | none => simp [stepEntry, he, hd, htext, hasEntry_removePath_self, sendCount]
    | some t => simp [stepEntry, he, hd, htext, hts, hasEntry_removePath_self, sendCount]

theorem stepEntry_dedupSkip (env : LoopEnv) (st : LoopState) (p : RPath) (e : RespEntry)
    (hd : p ∈ st.dedup) (he : e.enviado ≠ some true) :
    stepEntry env st p e = st := by
  simp [stepEntry, he, hd]

theorem tickGo_other (env : LoopEnv) (p : RPath) :
    ∀ (snap : List (RPath × RespEntry)) (st : LoopState),
      (∀ pe ∈ snap, pe.1 ≠ p) →
      hasEntry (tickGo env snap st).store p = hasEntry st.store p ∧
        ((p ∈ (tickGo env snap st).dedup) ↔ p ∈ st.dedup) ∧
        sendCount (tickGo env snap st) p = sendCount st p := by
  intro snap
  induction snap with
  | nil => intro st _; simp [tickGo]
  | cons pe rest ih =>
    intro st h
    have hq : pe.1 ≠ p := h pe (by simp)
    have hrest : ∀ q ∈ rest, q.1 ≠ p := fun q hm => h q (List.mem_cons_of_mem _ hm)
    by_cases hw : jsStartsWith pe.1.chatId "web_" = true
    · have := ih (stepEntry env st pe.1 pe.2) hrest
      simp only [tickGo, hw, if_true]
      refine ⟨?_, ?_, ?_⟩
      · rw [this.1, stepEntry_store_other env st pe.1 p pe.2 (fun hh => hq hh.symm)]
      · rw [this.2.1, stepEntry_dedup_other env st pe.1 p pe.2 (fun hh => hq hh.symm)]
      · rw [this.2.2, stepEntry_sendCount_other env st pe.1 p pe.2 (fun hh => hq hh.symm)]
    · have hw2 : jsStartsWith pe.1.chatId "web_" = false := by
        revert hw; cases jsStartsWith pe.1.chatId "web_" <;> simp
      simp only [tickGo, hw2, Bool.false_eq_true, if_false]
      exact ih st hrest

theorem tickGo_store_shrink (env : LoopEnv) (p : RPath) :
    ∀ (snap : List (RPath × RespEntry)) (st : LoopState),
      hasEntry st.store p = false → hasEntry (tickGo env snap st).store p = false := by
  intro snap
  induction snap with
  | nil => intro st h; simpa [tickGo] using h
  | cons pe rest ih =>
    intro st h
    by_cases hw : jsStartsWith pe.1.chatId "web_" = true
    · simp only [tickGo, hw, if_true]
      exact ih _ (stepEntry_store_shrink env st pe.1 p pe.2 h)
    · have hw2 : jsStartsWith pe.1.chatId "web_" = false := by
        revert hw; cases jsStartsWith pe.1.chatId "web_" <;> simp
      simp only [tickGo, hw2, Bool.false_eq_true, if_false]
      exact ih st h

theorem tickGo_nonweb (env : LoopEnv) :
    ∀ (snap : List (RPath × RespEntry)) (st : LoopState),
      (∀ pe ∈ snap, jsStartsWith pe.1.chatId "web_" = false) →
      tickGo env snap st = st := by
  intro snap
  induction snap with
  | nil => intro st _; rfl
  | cons pe rest ih =>
    intro st h
    have hw : jsStartsWith pe.1.chatId "web_" = false := h pe (by simp)
    simp only [tickGo, hw, Bool.false_eq_true, if_false]
    exact ih st (fun q hm => h q (List.mem_cons_of_mem _ hm))

theorem nodup_head_notmem {p : RPath} {e : RespEntry} {pe : RPath × RespEntry}
    {rest : List (RPath × RespEntry)}
    (hnd : ((pe :: rest).map Prod.fst).Nodup) (hmem : (p, e) ∈ rest) : pe.1 ≠ p := by
  intro hq
  rw [List.map_cons] at hnd
  exact (List.nodup_cons.mp hnd).1 (hq ▸ List.mem_map.mpr ⟨(p, e), hmem, rfl⟩)

theorem nodup_tail {pe : RPath × RespEntry} {rest : List (RPath × RespEntry)}
    (hnd : ((pe :: rest).map Prod.fst).Nodup) : (rest.map Prod.fst).Nodup := by
  rw [List.map_cons] at hnd
  exact (List.nodup_cons.mp hnd).2

theorem tickGo_deletes (env : LoopEnv) (p : RPath) (e : RespEntry)
    (hdel : ∀ st2 : LoopState, p ∉ st2.dedup →
      hasEntry (stepEntry env st2 p e).store p = false) :
    ∀ (snap : List (RPath × RespEntry)) (st : LoopState),
      (snap.map Prod.fst).Nodup → (p, e) ∈ snap →
      jsStartsWith p.chatId "web_" = true → p ∉ st.dedup →
      hasEntry (tickGo env snap st).store p = false := by
  intro snap
  induction snap with
  | nil => intro st _ hmem; exact absurd hmem (List.not_mem_nil _)
  | cons pe rest ih =>
    intro st hnd hmem hweb hd
    rcases List.mem_cons.mp hmem with hhead | htail
    · have hpe : pe = (p, e) := hhead.symm
      subst hpe
      simp only [tickGo, hweb, if_true]
      apply tickGo_store_shrink
      exact hdel st hd
    · have hq : pe.1 ≠ p := nodup_head_notmem hnd htail
      have hnd2 : (rest.map Prod.fst).Nodup := nodup_tail hnd
      by_cases hw : jsStartsWith pe.1.chatId "web_" = true
      · simp only [tickGo, hw, if_true]
        apply ih _ hnd2 htail hweb
        rw [stepEntry_dedup_other env st pe.1 p pe.2 (fun hh => hq hh.symm)]
        exact hd
      · have hw2 : jsStartsWith pe.1.chatId "web_" = false := by
          revert hw; cases jsStartsWith pe.1.chatId "web_" <;> simp
        simp only [tickGo, hw2, Bool.false_eq_true, if_false]
        exact ih st hnd2 htail hweb hd

theorem tickGo_nosend (env : LoopEnv) (p : RPath) (e : RespEntry)
    (hsnd : ∀ st2 : LoopState, p ∉ st2.dedup →
      sendCount (stepEntry env st2 p e) p = sendCount st2 p) :
    ∀ (snap : List (RPath × RespEntry)) (st : LoopState),
      (snap.map Prod.fst).Nodup → (p, e) ∈ snap → p ∉ st.dedup →
      sendCount (tickGo env snap st) p = sendCount st p := by
  intro snap
  induction snap with
  | nil => intro st _ hmem; exact absurd hmem (List.not_mem_nil _)
  | cons pe rest ih =>
    intro st hnd hmem hd
    rcases List.mem_cons.mp hmem with hhead | htail
    · have hpe : pe = (p, e) := hhead.symm
      subst hpe
      have hnd1 : ∀ q ∈ rest, q.1 ≠ p := by
        intro q hm hq
        rw [List.map_cons] at hnd
        exact (List.nodup_cons.mp hnd).1 (List.mem_map.mpr ⟨q, hm, hq⟩)
      by_cases hw : jsStartsWith p.chatId "web_" = true
      · simp only [tickGo, hw, if_true]
        rw [(tickGo_other env p rest _ hnd1).2.2]
        exact hsnd st hd
      · have hw2 : jsStartsWith p.chatId "web_" = false := by
          revert hw; cases jsStartsWith p.chatId "web_" <;> simp
        simp only [tickGo, hw2, Bool.false_eq_true, if_false]
        exact (tickGo_other env p rest st hnd1).2.2
    · have hq : pe.1 ≠ p := nodup_head_notmem hnd htail
      have hnd2 : (rest.map Prod.fst).Nodup := nodup_tail hnd
      by_cases hw : jsStartsWith pe.1.chatId "web_" = true
      · simp only [tickGo, hw, if_true]
        rw [ih _ hnd2 htail]
        · exact stepEntry_sendCount_other env st pe.1 p pe.2 (fun hh => hq hh.symm)
        · rw [stepEntry_dedup_other env st pe.1 p pe.2 (fun hh => hq hh.symm)]
          exact hd
      · have hw2 : jsStartsWith pe.1.chatId "web_" = false := by
          revert hw; cases jsStartsWith pe.1.chatId "web_" <;> simp
        simp only [tickGo, hw2, Bool.false_eq_true, if_false]
        exact ih st hnd2 htail hd

theorem stepEntry_sent_eq (env : LoopEnv) (st : LoopState) (p : RPath) (e : RespEntry)
    (he : e.enviado = some true) :
    stepEntry env st p e =
      { st with store := removePath st.store p, dedup := dedupErase st.dedup p } := by
  simp [stepEntry, he]

theorem stepEntry_invalid_eq (env : LoopEnv) (st : LoopState) (p : RPath) (e : RespEntry)
    (hd : p ∉ st.dedup) (he : e.enviado ≠ some true) (ht : textUsable e.text = none) :
    stepEntry env st p e =
      { st with store := removePath st.store p, dedup := p :: st.dedup } := by
  simp [stepEntry, he, hd, ht]

theorem stepEntry_stale_eq (env : LoopEnv) (st : LoopState) (p : RPath) (e : RespEntry)
    (t : String) (hd : p ∉ st.dedup) (he : e.enviado ≠ some true)
    (ht : textUsable e.text = some t) (hts : e.ts.getD 0 < env.startup) :
    stepEntry env st p e =
      { st with store := removePath st.store p, dedup := p :: st.dedup } := by
  simp [stepEntry, he, hd, ht, hts]

theorem stepEntry_claimLost_eq (env : LoopEnv) (st : LoopState) (p : RPath) (e : RespEntry)
    (t : String) (hd : p ∉ st.dedup) (he : e.enviado ≠ some true)
    (ht : textUsable e.text = some t) (hts : ¬ e.ts.getD 0 < env.startup)
    (hc : env.claimWins p = false) :
    stepEntry env st p e = { st with dedup := p :: st.dedup } := by
  simp [stepEntry, he, hd, ht, hts, hc]

theorem stepEntry_dedup_removed_of_mem (env : LoopEnv) (st : LoopState) (p : RPath)
    (e : RespEntry) (hmem : p ∈ st.dedup) (hgone : p ∉ (stepEntry env st p e).dedup) :
    e.enviado = some true := by
  by_cases he : e.enviado = some true
  · exact he
  · rw [stepEntry_dedupSkip env st p e hmem he] at hgone
    exact absurd hmem hgone

theorem stepEntry_dedup_removed_of_notmem (env : LoopEnv) (st : LoopState) (p : RPath)
    (e : RespEntry) (hd : p ∉ st.dedup) (hgone : p ∉ (stepEntry env st p e).dedup) :
    e.enviado = some true ∨
      (e.enviado ≠ some true ∧ env.claimWins p = true ∧
        (∃ t, textUsable e.text = some t) ∧ ¬ e.ts.getD 0 < env.startup) := by
  by_cases he : e.enviado = some true
  · exact Or.inl he
  · right
    cases htext : textUsable e.text with
    | none =>
      rw [stepEntry_invalid_eq env st p e hd he htext] at hgone
      exact absurd (by simp) hgone
    | some t =>
      by_cases hts : e.ts.getD 0 < env.startup
      · rw [stepEntry_stale_eq env st p e t hd he htext hts] at hgone
        exact absurd (by simp) hgone
      · by_cases hc : env.claimWins p
        · exact ⟨he, hc, ⟨t, rfl⟩, hts⟩
        · rw [stepEntry_claimLost_eq env st p e t hd he htext hts
            (by simpa using hc)] at hgone
          exact absurd (by simp) hgone

theorem tickGo_dedup_skip (env : LoopEnv) (p : RPath) (e : RespEntry) :
    ∀ (snap : List (RPath × RespEntry)) (st : LoopState),
      (snap.map Prod.fst).Nodup → (p, e) ∈ snap → p ∈ st.dedup →
      e.enviado ≠ some true →
      p ∈ (tickGo env snap st).dedup ∧
        hasEntry (tickGo env snap st).store p = hasEntry st.store p ∧
        sendCount (tickGo env snap st) p = sendCount st p := by
  intro snap
  induction snap with
  | nil => intro st _ hmem; exact absurd hmem (List.not_mem_nil _)
  | cons pe rest ih =>
    intro st hnd hmem hd he
    rcases List.mem_cons.mp hmem with hhead | htail
    · have hpe : pe = (p, e) := hhead.symm
      subst hpe
      have hnd1 : ∀ q ∈ rest, q.1 ≠ p := by
        intro q hm hq
        rw [List.map_cons] at hnd
        exact (List.nodup_cons.mp hnd).1 (List.mem_map.mpr ⟨q, hm, hq⟩)
      by_cases hw : jsStartsWith p.chatId "web_" = true
      · simp only [tickGo, hw, if_true]
        rw [stepEntry_dedupSkip env st p e hd he]
        have hrest := tickGo_other env p rest st hnd1
        exact ⟨hrest.2.1.mpr hd, hrest.1, hrest.2.2⟩
      · have hw2 : jsStartsWith p.chatId "web_" = false := by
          revert hw; cases jsStartsWith p.chatId "web_" <;> simp
        simp only [tickGo, hw2, Bool.false_eq_true, if_false]
        have hrest := tickGo_other env p rest st hnd1
        exact ⟨hrest.2.1.mpr hd, hrest.1, hrest.2.2⟩
    · have hq : pe.1 ≠ p := nodup_head_notmem hnd htail
      have hnd2 : (rest.map Prod.fst).Nodup := nodup_tail hnd
      by_cases hw : jsStartsWith pe.1.chatId "web_" = true
      · simp only [tickGo, hw, if_true]
        have hd2 : p ∈ (stepEntry env st pe.1 pe.2).dedup :=
          (stepEntry_dedup_other env st pe.1 p pe.2 (fun hh => hq hh.symm)).mpr hd
        have hres := ih (stepEntry env st pe.1 pe.2) hnd2 htail hd2 he
        refine ⟨hres.1, ?_, ?_⟩
        · rw [hres.2.1, stepEntry_store_other env st pe.1 p pe.2 (fun hh => hq hh.symm)]
        · rw [hres.2.2, stepEntry_sendCount_other env st pe.1 p pe.2 (fun hh => hq hh.symm)]
      · have hw2 : jsStartsWith pe.1.chatId "web_" = false := by
          revert hw; cases jsStartsWith pe.1.chatId "web_" <;> simp
        simp only [tickGo, hw2, Bool.false_eq_true, if_false]
        exact ih st hnd2 htail hd he

theorem retryAux_length_le (gw : Nat → Bool) (mr d : Nat) :
    ∀ (fuel attempt : Nat), (retryAux gw mr d attempt fuel).1.length ≤ fuel := by
  intro fuel
  induction fuel with
  | zero => intro attempt; simp [retryAux]
  | succ n ih =>
    intro attempt
    by_cases h1 : gw attempt
    · simp [retryAux, h1]
    · by_cases h2 : attempt = mr
      · subst h2; simp [retryAux, h1]
      · simp only [retryAux, h1, h2, Bool.false_eq_true, if_false]
        simpa using Nat.succ_le_succ (ih (attempt + 1))

theorem retryAux_true_count_le (gw : Nat → Bool) (mr d : Nat) :
    ∀ (fuel attempt : Nat), (retryAux gw mr d attempt fuel).1.count true ≤ 1 := by
  intro fuel
  induction fuel with
  | zero => intro attempt; simp [retryAux]
  | succ n ih =>
    intro attempt
    by_cases h1 : gw attempt
    · simp [retryAux, h1]
    · by_cases h2 : attempt = mr
      · subst h2; simp [retryAux, h1]
      · simp only [retryAux, h1, h2, Bool.false_eq_true, if_false]
        simpa [List.count_cons] using ih (attempt + 1)

theorem retryWithBackoff_calls_le (gw : Nat → Bool) (mr d : Nat) :
    (retryWithBackoff gw mr d).1.length ≤ mr :=
  retryAux_length_le gw mr d mr 1

theorem retryWithBackoff_true_count_le (gw : Nat → Bool) (mr d : Nat) :
    (retryWithBackoff gw mr d).1.count true ≤ 1 :=
  retryAux_true_count_le gw mr d mr 1

theorem runDeliveryRace_claimed (gws : List (Nat → Bool)) :
    runDeliveryRace (some true) gws = (some true, gws.map (fun _ => [])) := by
  induction gws with
  | nil => rfl
  | cons gw rest ih => simp [runDeliveryRace, claimTransaction, ih]

/-- A routing store in which every lookup succeeds (a fully provisioned
tenant with a conversation-to-channel binding). -/
def rsFull : RoutingStore :=
  { chatInstances := fun _ _ => some "colmado_t1"
    evolutionInstances := fun _ => some "key1"
    tiendasPorSlug := fun _ => some "t1"
    tiendasEvolution := fun _ => some (some "colmado_t1", some "key1") }

/-- A routing store in which nothing resolves (the no-instance-found path). -/
def rsEmpty : RoutingStore :=
  { chatInstances := fun _ _ => none
    evolutionInstances := fun _ => none
    tiendasPorSlug := fun _ => none
    tiendasEvolution := fun _ => none }

/-- A single delivery-loop instance (every claim transaction commits), with
startup time 1000 ms, full routing and a gateway that always succeeds. -/
def envSolo : LoopEnv :=
  { startup := 1000, rs := rsFull, claimWins := fun _ => true, gateway := fun _ _ => true }

/-- Like `envSolo`, but the gateway fails the first two `sendText` attempts
and succeeds on the third. -/
def envThird : LoopEnv :=
  { startup := 1000, rs := rsFull, claimWins := fun _ => true,
    gateway := fun _ k => k == 3 }

/-- Like `envSolo`, but every claim transaction is lost to another
instance. -/
def envLost : LoopEnv :=
  { startup := 1000, rs := rsFull, claimWins := fun _ => false, gateway := fun _ _ => true }

/-- Like `envSolo`, but with nothing resolvable in the routing store and a
gateway that would fail every attempt (routing-failure scenario). -/
def envNoRoute : LoopEnv :=
  { startup := 1000, rs := rsEmpty, claimWins := fun _ => true, gateway := fun _ _ => false }

/-- A pending-response path under a `web_` conversation id. -/
def pW : RPath := ⟨"tienda1", "web_18095551234", "r1"⟩

/-- A second `web_` path. -/
def pW2 : RPath := ⟨"tienda1", "web_18300000000", "r2"⟩

/-- A path under a conversation id that does not start with `web_`. -/
def pPlain : RPath := ⟨"tienda1", "whatsapp18095551234", "r1"⟩

/-- A second non-`web_` path. -/
def pPlain2 : RPath := ⟨"tienda1", "whatsapp18300000000", "r2"⟩

/-- A valid entry created after startup. -/
def eFresh : RespEntry := ⟨none, some (JVal.str "Hola"), some 5000⟩

/-- A valid entry created before startup (`ts = 10 < 1000`). -/
def eOld : RespEntry := ⟨none, some (JVal.str "Hola"), some 10⟩

/-- An entry with no text body at all. -/
def eNoText : RespEntry := ⟨none, none, some 5000⟩

/-- An entry whose text body is a number rather than a string. -/
def eNumText : RespEntry := ⟨none, some (JVal.num 5), some 5000⟩

/-- An entry already marked `enviado: true`. -/
def eSent : RespEntry := ⟨some true, some (JVal.str "Hola"), some 5000⟩

theorem race_tail_empty_countP (n : Nat) :
    ((List.replicate n ([] : List Bool)).countP (fun calls => !calls.isEmpty)) = 0 := by
  induction n with
  | zero => rfl
  | succ m ih => simp [List.replicate, List.countP_cons, ih]

theorem race_tail_empty_sum (n : Nat) :
    (((List.replicate n ([] : List Bool)).map (fun calls => calls.count true)).sum) = 0 := by
  induction n with
  | zero => rfl
  | succ m ih => simp [List.replicate, ih]

theorem race_countP_le (v : Option Bool) (gws : List (Nat → Bool)) :
    ((runDeliveryRace v gws).2.countP (fun calls => !calls.isEmpty)) ≤ 1 := by
  induction gws generalizing v with
  | nil => simp [runDeliveryRace]
  | cons gw rest ih =>
    by_cases hv : v = some true
    · subst hv
      rw [runDeliveryRace_claimed]
      simp [List.countP_cons, race_tail_empty_countP]
    · have hct : claimTransaction v = (some true, true) := by
        simp [claimTransaction, hv]
      simp only [runDeliveryRace, hct]
      rw [runDeliveryRace_claimed]
      cases h : (!((retryWithBackoff gw 3 1000).1.isEmpty)) <;>
        simp [List.countP_cons, race_tail_empty_countP, h]

theorem race_sum_le (v : Option Bool) (gws : List (Nat → Bool)) :
    (((runDeliveryRace v gws).2.map (fun calls => calls.count true)).sum) ≤ 1 := by
  induction gws generalizing v with
  | nil => simp [runDeliveryRace]
  | cons gw rest ih =>
    by_cases hv : v = some true
    · subst hv
      rw [runDeliveryRace_claimed]
      simp [race_tail_empty_sum]
    · have hct : claimTransaction v = (some true, true) := by
        simp [claimTransaction, hv]
      simp only [runDeliveryRace, hct]
      rw [runDeliveryRace_claimed]
      simp [race_tail_empty_sum]
      simpa using retryWithBackoff_true_count_le gw 3 1000

/-- C1: for every pending-response entry observed by N concurrently running
delivery-loop instances, serialised at the atomic `enviado` transaction, at
most one instance's compare-and-swap commits (the callback commits exactly
when the prior value was absent or not `true`, writing `true`), at most one
instance performs any gateway send-text call for the entry, at most one
successful gateway call happens overall, and an instance whose transaction
does not commit skips the entry without sending (an already-claimed flag
makes the whole race send nothing). -/
theorem c1_at_most_once_delivery (v : Option Bool) (gws : List (Nat → Bool)) :
    ((runDeliveryRace v gws).2.countP (fun calls => !calls.isEmpty)) ≤ 1 ∧
      (((runDeliveryRace v gws).2.map (fun calls => calls.count true)).sum) ≤ 1 ∧
      (∀ cur : Option Bool, (claimTransaction cur).2 = true ↔ cur ≠ some true) ∧
      (∀ cur : Option Bool, cur ≠ some true → claimTransaction cur = (some true, true)) ∧
      (v = some true → (runDeliveryRace v gws).2 = List.replicate gws.length []) := by
  refine ⟨race_countP_le v gws, race_sum_le v gws, ?_, ?_, ?_⟩
  · intro cur
    by_cases h : cur = some true <;> simp [claimTransaction, h]
  · intro cur h
    simp [claimTransaction, h]
  · intro hv
    subst hv
    rw [runDeliveryRace_claimed]
    simp

/-- Witness for C1: with the flag initially absent, three racing instances
produce exactly one nonempty send list with exactly one successful call, and
with the flag already `true` nobody sends. -/
theorem c1_at_most_once_delivery_witness :
    ((runDeliveryRace none [fun _ => true, fun _ => true, fun _ => true]).2.countP
        (fun calls => !calls.isEmpty)) ≤ 1 ∧
      (runDeliveryRace (some true) [fun _ => true]).2 = List.replicate 1 [] :=
  ⟨(c1_at_most_once_delivery none [fun _ => true, fun _ => true, fun _ => true]).1,
    (c1_at_most_once_delivery (some true) [fun _ => true]).2.2.2.2 rfl⟩

/-- C2: every snapshot entry whose claim transaction commits (a fresh, valid,
`web_`-routed entry not yet in the dedup set, with the transaction oracle
granting the claim) is absent from the store once the claiming tick
completes, for every routing outcome and every gateway behaviour — success,
retries exhausted (the rethrown error reaching the catch block), or no
instance/credential resolving; the `finally` cleanup deletes it
unconditionally. -/
theorem c2_guaranteed_cleanup (env : LoopEnv) (st : LoopState) (p : RPath) (e : RespEntry)
    (t : String)
    (hnd : pathsNodup st.store) (hmem : (p, e) ∈ st.store)
    (hweb : jsStartsWith p.chatId "web_" = true)
    (hd : p ∉ st.dedup)
    (_he : e.enviado ≠ some true)
    (_ht : textUsable e.text = some t)
    (_hts : ¬ e.ts.getD 0 < env.startup)
    (hclaim : env.claimWins p = true) :
    hasEntry (tick env st).store p = false := by
  unfold tick
  exact tickGo_deletes env p e
    (fun st2 hd2 => stepEntry_deletes env st2 p e hd2 hclaim)
    st.store st hnd hmem hweb hd

/-- Witness for C2: a claimed entry is gone after the tick both when the
gateway fails every attempt and when no routing resolves. -/
theorem c2_guaranteed_cleanup_witness :
    hasEntry (tick envNoRoute ⟨[(pW, eFresh)], [], []⟩).store pW = false ∧
      hasEntry (tick envSolo ⟨[(pW, eFresh)], [], []⟩).store pW = false :=
  ⟨c2_guaranteed_cleanup envNoRoute ⟨[(pW, eFresh)], [], []⟩ pW eFresh "Hola"
      (by decide) (by decide) (by decide) (by decide) (by decide) (by decide)
      (by decide) (by decide),
    c2_guaranteed_cleanup envSolo ⟨[(pW, eFresh)], [], []⟩ pW eFresh "Hola"
      (by decide) (by decide) (by decide) (by decide) (by decide) (by decide)
      (by decide) (by decide)⟩

/-- C4: the send step makes at most 3 gateway attempts; the backoff delay
awaited after failed attempt `k` is `1000 * 2 ^ (k - 1)` ms — the 1s, 2s,
4s schedule, of which a 3-attempt run awaits the 1s and 2s entries; a first
success stops further attempts; a gateway failing twice then succeeding
yields exactly the trace fail, fail, success with delays 1s and 2s; and the
claimed entry is deleted from the store after the tick. -/
theorem c4_retry_backoff :
    (∀ gw : Nat → Bool, (retryWithBackoff gw 3 1000).1.length ≤ 3) ∧
      (∀ gw : Nat → Bool, (retryWithBackoff gw 3 1000).2.1 =
        (List.range ((retryWithBackoff gw 3 1000).1.length - 1)).map
          (fun k => 1000 * 2 ^ k)) ∧
      (∀ gw : Nat → Bool, gw 1 = true → (retryWithBackoff gw 3 1000).1 = [true]) ∧
      retryWithBackoff (fun k => k == 3) 3 1000 = ([false, false, true], [1000, 2000], true) ∧
      tick envThird ⟨[(pW, eFresh)], [], []⟩ =
        ⟨[], [], [(pW, false), (pW, false), (pW, true)]⟩ := by
  refine ⟨fun gw => retryWithBackoff_calls_le gw 3 1000, ?_, ?_, by decide, by decide⟩
  · intro gw
    by_cases h1 : gw 1 <;> by_cases h2 : gw 2 <;> by_cases h3 : gw 3 <;>
      simp [retryWithBackoff, retryAux, h1, h2, h3, List.range_succ]
  · intro gw h1
    simp [retryWithBackoff, retryAux, h1]

/-- Witness for C4: instantiating the stop-on-first-success clause at an
always-succeeding gateway. -/
theorem c4_retry_backoff_witness :
    (retryWithBackoff (fun _ => true) 3 1000).1 = [true] :=
  c4_retry_backoff.2.2.1 (fun _ => true) rfl

/-- C3 counterexample: a valid, fresh pending entry under the conversation
id `whatsapp18095551234`, which does not start with `web_`, is left
untouched by a tick of a single fully provisioned instance — the tick is the
identity on the state, so iterating it never deletes the entry and no
gateway call is ever made; this contradicts the claim that every pending
response is eventually deleted including those whose conversation id does
not start with `web_`. -/
theorem c3_counterexample :
    jsStartsWith pPlain.chatId "web_" = false ∧
      tick envSolo ⟨[(pPlain, eFresh)], [], []⟩ = ⟨[(pPlain, eFresh)], [], []⟩ ∧
      hasEntry [(pPlain, eFresh)] pPlain = true := by
  refine ⟨by decide, by decide, by decide⟩

/-- C3 (amended): every pending entry under a `web_`-prefixed conversation
id whose path is not already in the process-local dedup set and whose claim
transaction is not lost to another instance is deleted by the tick that
observes it (whatever its flag, text body and timestamp); entries under
conversation ids without the `web_` prefix are never processed at all — a
snapshot containing only such entries leaves the tick a no-op. -/
theorem c3_amended_deletion (env : LoopEnv) (st : LoopState) :
    (∀ (p : RPath) (e : RespEntry), pathsNodup st.store → (p, e) ∈ st.store →
        jsStartsWith p.chatId "web_" = true → p ∉ st.dedup → env.claimWins p = true →
        hasEntry (tick env st).store p = false) ∧
      ((∀ pe ∈ st.store, jsStartsWith pe.1.chatId "web_" = false) → tick env st = st) := by
  constructor
  · intro p e hnd hmem hweb hd hclaim
    unfold tick
    exact tickGo_deletes env p e
      (fun st2 hd2 => stepEntry_deletes env st2 p e hd2 hclaim)
      st.store st hnd hmem hweb hd
  · intro h
    unfold tick
    exact tickGo_nonweb env st.store st h

/-- Witness for the amended C3: a `web_` entry is deleted by the observing
tick, and a snapshot of only non-`web_` entries leaves the tick a no-op. -/
theorem c3_amended_deletion_witness :
    hasEntry (tick envSolo ⟨[(pW2, eOld)], [], []⟩).store pW2 = false ∧
      tick envSolo ⟨[(pPlain2, eFresh)], [], []⟩ = ⟨[(pPlain2, eFresh)], [], []⟩ :=
  ⟨(c3_amended_deletion envSolo ⟨[(pW2, eOld)], [], []⟩).1 pW2 eOld (by decide) (by decide)
      (by decide) (by decide) (by decide),
    (c3_amended_deletion envSolo ⟨[(pPlain2, eFresh)], [], []⟩).2 (by decide)⟩

/-- C6 counterexample: an entry with creation timestamp 10, strictly below
the process start time 1000, is not deleted by the tick that observes it, in
two situations: (i) its conversation id does not start with `web_`, so the
loop never processes it; (ii) its path is already in the process-local dedup
set (left there by an earlier tick, per the dedup-set lifecycle), so the
loop skips it before reaching the startup-time guard.  In both cases the
tick is the identity on the state and no gateway call is made. -/
theorem c6_counterexample :
    eOld.ts.getD 0 < envSolo.startup ∧
      tick envSolo ⟨[(pPlain2, eOld)], [], []⟩ = ⟨[(pPlain2, eOld)], [], []⟩ ∧
      tick envSolo ⟨[(pW2, eOld)], [pW2], []⟩ = ⟨[(pW2, eOld)], [pW2], []⟩ := by
  refine ⟨by decide, by decide, by decide⟩

/-- C6 (amended): every pending entry under a `web_`-prefixed conversation
id whose path is not already in the process-local dedup set and whose `ts`
field (0 when absent) is strictly below the process start time is deleted by
the tick that observes it, and no gateway send call is made for it. -/
theorem c6_amended_startup_guard (env : LoopEnv) (st : LoopState) (p : RPath) (e : RespEntry)
    (hnd : pathsNodup st.store) (hmem : (p, e) ∈ st.store)
    (hweb : jsStartsWith p.chatId "web_" = true)
    (hd : p ∉ st.dedup)
    (hts : e.ts.getD 0 < env.startup) :
    hasEntry (tick env st).store p = false ∧ sendCount (tick env st) p = sendCount st p := by
  constructor
  · unfold tick
    exact tickGo_deletes env p e
      (fun st2 hd2 => (stepEntry_stale_deletes env st2 p e hd2 hts).1)
      st.store st hnd hmem hweb hd
  · unfold tick
    exact tickGo_nosend env p e
      (fun st2 hd2 => (stepEntry_stale_deletes env st2 p e hd2 hts).2)
      st.store st hnd hmem hd

/-- Witness for the amended C6: a stale `web_` entry, fresh to the dedup
set, is deleted by the tick with zero gateway calls. -/
theorem c6_amended_startup_guard_witness :
    hasEntry (tick envSolo ⟨[(pW2, eOld)], [], []⟩).store pW2 = false ∧
      sendCount (tick envSolo ⟨[(pW2, eOld)], [], []⟩) pW2 =
        sendCount ⟨[(pW2, eOld)], [], []⟩ pW2 :=
  c6_amended_startup_guard envSolo ⟨[(pW2, eOld)], [], []⟩ pW2 eOld
    (by decide) (by decide) (by decide) (by decide) (by decide)

/-- C8 counterexample: an entry with no text body (and one whose text body
is a number) is not deleted by the tick that observes it when its
conversation id does not start with `web_`, or when its path is already in
the process-local dedup set — the tick is the identity and no gateway call
is made, contradicting the claim for every entry observed by a tick. -/
theorem c8_counterexample :
    textUsable eNoText.text = none ∧ textUsable eNumText.text = none ∧
      tick envSolo ⟨[(pPlain, eNoText)], [], []⟩ = ⟨[(pPlain, eNoText)], [], []⟩ ∧
      tick envSolo ⟨[(pW, eNumText)], [pW], []⟩ = ⟨[(pW, eNumText)], [pW], []⟩ := by
  refine ⟨rfl, rfl, by decide, by decide⟩

/-- C8 (amended): every pending entry under a `web_`-prefixed conversation
id whose path is not already in the process-local dedup set and whose text
body is missing or not a string is deleted by the tick that observes it,
with no gateway send call made for it. -/
theorem c8_amended_invalid_text (env : LoopEnv) (st : LoopState) (p : RPath) (e : RespEntry)
    (hnd : pathsNodup st.store) (hmem : (p, e) ∈ st.store)
    (hweb : jsStartsWith p.chatId "web_" = true)
    (hd : p ∉ st.dedup)
    (htx : e.text = none ∨ ∀ s, e.text ≠ some (JVal.str s)) :
    hasEntry (tick env st).store p = false ∧ sendCount (tick env st) p = sendCount st p := by
  have ht : textUsable e.text = none := by
    rcases htx with h | h
    · rw [h]; rfl
    · cases hv : e.text with
      | none => rfl
      | some v =>
        cases v with
        | str s => exact absurd hv (h s)
        | num n => rfl
        | boolV b => rfl
        | nullV => rfl
  constructor
  · unfold tick
    exact tickGo_deletes env p e
      (fun st2 hd2 => (stepEntry_invalid_deletes env st2 p e hd2 ht).1)
      st.store st hnd hmem hweb hd
  · unfold tick
    exact tickGo_nosend env p e
      (fun st2 hd2 => (stepEntry_invalid_deletes env st2 p e hd2 ht).2)
      st.store st hnd hmem hd

/-- Witness for the amended C8: a text-less `web_` entry fresh to the dedup
set is deleted by the tick with zero gateway calls. -/
theorem c8_amended_invalid_text_witness :
    hasEntry (tick envSolo ⟨[(pW2, eNoText)], [], []⟩).store pW2 = false ∧
      sendCount (tick envSolo ⟨[(pW2, eNoText)], [], []⟩) pW2 =
        sendCount ⟨[(pW2, eNoText)], [], []⟩ pW2 :=
  c8_amended_invalid_text envSolo ⟨[(pW2, eNoText)], [], []⟩ pW2 eNoText
    (by decide) (by decide) (by decide) (by decide) (Or.inl rfl)

/-- C9: lifecycle of the process-local dedup set.  (1) A validity-check
deletion removes the entry from the store but leaves the freshly added path
in the set; (2) so does a startup-guard deletion; (3) a lost claim leaves
both the store entry and the added path in place; (4) a path already in the
set can only be removed by the self-healing already-sent cleanup; (5) a path
freshly added in this step leaves the set again only through the self-healing
cleanup or the committed-claim finally block; (6) consequently a path stuck
in the set makes any tick skip an entry re-created at that path (with the
claim flag not `true`): the path stays in the set, the entry stays in the
store, and no gateway call is made, on this and hence every subsequent
tick. -/
theorem c9_dedup_set_lifecycle (env : LoopEnv) (st : LoopState) (p : RPath) (e : RespEntry) :
    (p ∉ st.dedup → e.enviado ≠ some true → textUsable e.text = none →
        stepEntry env st p e =
          { st with store := removePath st.store p, dedup := p :: st.dedup }) ∧
      (∀ t : String, p ∉ st.dedup → e.enviado ≠ some true → textUsable e.text = some t →
        e.ts.getD 0 < env.startup →
        stepEntry env st p e =
          { st with store := removePath st.store p, dedup := p :: st.dedup }) ∧
      (∀ t : String, p ∉ st.dedup → e.enviado ≠ some true → textUsable e.text = some t →
        ¬ e.ts.getD 0 < env.startup → env.claimWins p = false →
        stepEntry env st p e = { st with dedup := p :: st.dedup }) ∧
      (p ∈ st.dedup → p ∉ (stepEntry env st p e).dedup → e.enviado = some true) ∧
      (p ∉ st.dedup → p ∉ (stepEntry env st p e).dedup →
        e.enviado = some true ∨
          (e.enviado ≠ some true ∧ env.claimWins p = true ∧
            (∃ t, textUsable e.text = some t) ∧ ¬ e.ts.getD 0 < env.startup)) ∧
      (pathsNodup st.store → (p, e) ∈ st.store → p ∈ st.dedup → e.enviado ≠ some true →
        p ∈ (tick env st).dedup ∧
          hasEntry (tick env st).store p = hasEntry st.store p ∧
          sendCount (tick env st) p = sendCount st p) := by
  refine ⟨?_, ?_, ?_, ?_, ?_, ?_⟩
  · intro hd he ht
    exact stepEntry_invalid_eq env st p e hd he ht
  · intro t hd he ht hts
    exact stepEntry_stale_eq env st p e t hd he ht hts
  · intro t hd he ht hts hc
    exact stepEntry_claimLost_eq env st p e t hd he ht hts hc
  · intro hmem hgone
    exact stepEntry_dedup_removed_of_mem env st p e hmem hgone
  · intro hd hgone
    exact stepEntry_dedup_removed_of_notmem env st p e hd hgone
  · intro hnd hmem hd he
    unfold tick
    exact tickGo_dedup_skip env p e st.store st hnd hmem hd he

/-- Witness for C9: concrete instantiations of each clause — an invalid
entry deleted with its path retained, a stale entry likewise, a lost claim
retaining both path and entry, removal of an in-set path forced through the
self-healing branch, a committed claim erasing a freshly added path, and a
stuck path making the tick skip a re-created fresh entry. -/
theorem c9_dedup_set_lifecycle_witness :
    (stepEntry envSolo ⟨[(pW, eNoText)], [], []⟩ pW eNoText =
        { store := removePath [(pW, eNoText)] pW, dedup := [pW], sends := [] }) ∧
      (stepEntry envSolo ⟨[(pW, eOld)], [], []⟩ pW eOld =
        { store := removePath [(pW, eOld)] pW, dedup := [pW], sends := [] }) ∧
      (stepEntry envLost ⟨[(pW, eFresh)], [], []⟩ pW eFresh =
        { store := [(pW, eFresh)], dedup := [pW], sends := [] }) ∧
      (eSent.enviado = some true) ∧
      (eFresh.enviado = some true ∨
        (eFresh.enviado ≠ some true ∧ envSolo.claimWins pW = true ∧
          (∃ t, textUsable eFresh.text = some t) ∧
          ¬ eFresh.ts.getD 0 < envSolo.startup)) ∧
      (pW2 ∈ (tick envLost ⟨[(pW2, eFresh)], [pW2], []⟩).dedup ∧
        hasEntry (tick envLost ⟨[(pW2, eFresh)], [pW2], []⟩).store pW2 =
          hasEntry [(pW2, eFresh)] pW2 ∧
        sendCount (tick envLost ⟨[(pW2, eFresh)], [pW2], []⟩) pW2 =
          sendCount ⟨[(pW2, eFresh)], [pW2], []⟩ pW2) :=
  ⟨(c9_dedup_set_lifecycle envSolo ⟨[(pW, eNoText)], [], []⟩ pW eNoText).1
      (by decide) (by decide) rfl,
    (c9_dedup_set_lifecycle envSolo ⟨[(pW, eOld)], [], []⟩ pW eOld).2.1 "Hola"
      (by decide) (by decide) (by decide) (by decide),
    (c9_dedup_set_lifecycle envLost ⟨[(pW, eFresh)], [], []⟩ pW eFresh).2.2.1 "Hola"
      (by decide) (by decide) (by decide) (by decide) (by decide),
    (c9_dedup_set_lifecycle envSolo ⟨[(pW, eSent)], [pW], []⟩ pW eSent).2.2.2.1
      (by decide) (by decide),
    (c9_dedup_set_lifecycle envSolo ⟨[(pW, eFresh)], [], []⟩ pW eFresh).2.2.2.2.1
      (by decide) (by decide),
    (c9_dedup_set_lifecycle envLost ⟨[(pW2, eFresh)], [pW2], []⟩ pW2 eFresh).2.2.2.2.2
      (by decide) (by decide) (by decide) (by decide)⟩

/-- An accepted inbound text-message event, used in concrete scenarios. -/
def evText : WebhookEvent :=
  { eventType := "messages.upsert", fromMe := false,
    remoteJid := some "18095551234@s.whatsapp.net",
    conversationText := some "Hola", extendedText := none, hasAudio := false }

/-- C5 counterexample: for an accepted text message, the tenant-slug
resolution (step 6, the `/evolution_instances/{instance}` read) happens
strictly before the HTTP 200 acknowledgement is sent, not after it — the
handler resolves the slug and only then responds, contradicting the claim
that the response precedes steps 6 to 9. -/
theorem c5_counterexample :
    WAction.slugLookup ∈ webhookTrace evText none ∧
      WAction.respond 200 ∈ webhookTrace evText none ∧
      ¬ occursBefore (WAction.respond 200) WAction.slugLookup (webhookTrace evText none) ∧
      occursBefore WAction.slugLookup (WAction.respond 200) (webhookTrace evText none) := by
  refine ⟨by decide, by decide, by decide, by decide⟩

/-- C5 (amended): for every accepted inbound message event, exactly one HTTP
response is emitted, it is the 200 acknowledgement, it is sent after the
tenant-slug resolution but before the binding write, the identity-cache
resolution and the message-log append (steps 7 to 9), and a failure in any
of those background steps after the response only appends a log entry —
never a second response to the caller. -/
theorem c5_amended_ack_ordering (ev : WebhookEvent) (fail : Option BgFail)
    (hacc : accepted ev) :
    (webhookTrace ev fail).filter isRespond = [WAction.respond 200] ∧
      occursBefore WAction.slugLookup (WAction.respond 200) (webhookTrace ev fail) ∧
      occursBefore (WAction.respond 200) WAction.bindingWrite (webhookTrace ev fail) ∧
      occursBefore (WAction.respond 200) WAction.enrich (webhookTrace ev fail) ∧
      occursBefore (WAction.respond 200) WAction.appendMessage (webhookTrace ev fail) ∧
      (fail.isSome = true →
        WAction.logError ∈ webhookTrace ev fail ∧
          occursBefore (WAction.respond 200) WAction.logError (webhookTrace ev fail)) := by
  obtain ⟨h1, h2, h3, h4⟩ := hacc
  obtain ⟨r, hr⟩ := Option.isSome_iff_exists.mp h3
  by_cases haud : ev.hasAudio = true
  · have htr : webhookTrace ev fail =
        [WAction.mediaConfigLookup, WAction.mediaDownload, WAction.slugLookup,
          WAction.respond 200] ++ bgActions fail := by
      simp [webhookTrace, h1, h2, hr, haud]
    rw [htr]
    rcases fail with _ | f
    · decide
    · cases f <;> decide
  · have haud2 : ev.hasAudio = false := by
      revert haud; cases ev.hasAudio <;> simp
    have htext : blankText (jsOr ev.conversationText ev.extendedText) = false := by
      rcases h4 with h | h
      · exact absurd h haud
      · exact h
    have htr : webhookTrace ev fail =
        [WAction.slugLookup, WAction.respond 200] ++ bgActions fail := by
      simp [webhookTrace, h1, h2, hr, haud2, htext]
    rw [htr]
    rcases fail with _ | f
    · decide
    · cases f <;> decide

/-- Witness for the amended C5: the concrete accepted text event with the
enrichment step failing in the background. -/
theorem c5_amended_ack_ordering_witness :
    (webhookTrace evText (some BgFail.atEnrich)).filter isRespond = [WAction.respond 200] ∧
      occursBefore WAction.slugLookup (WAction.respond 200)
        (webhookTrace evText (some BgFail.atEnrich)) ∧
      occursBefore (WAction.respond 200) WAction.bindingWrite
        (webhookTrace evText (some BgFail.atEnrich)) ∧
      occursBefore (WAction.respond 200) WAction.enrich
        (webhookTrace evText (some BgFail.atEnrich)) ∧
      occursBefore (WAction.respond 200) WAction.appendMessage
        (webhookTrace evText (some BgFail.atEnrich)) ∧
      ((some BgFail.atEnrich).isSome = true →
        WAction.logError ∈ webhookTrace evText (some BgFail.atEnrich) ∧
          occursBefore (WAction.respond 200) WAction.logError
            (webhookTrace evText (some BgFail.atEnrich))) :=
  c5_amended_ack_ordering evText (some BgFail.atEnrich) ⟨rfl, rfl, rfl, Or.inr (by decide)⟩

theorem cacheLookup_cacheSet_self (c : List (String × CacheEntry)) (k : String)
    (e : CacheEntry) : cacheLookup (cacheSet c k e) k = some e := by
  simp [cacheLookup, cacheSet, List.find?_cons]

theorem c7_first_call_miss (store : LookupStore) (cache0 : List (String × CacheEntry))
    (t0 : Nat) (p : EnrichPayload)
    (hstale : ∀ c, cacheLookup cache0 p.chatId = some c → c.expires ≤ t0) :
    enrichWhatsAppPayload store cache0 t0 p = enrichMiss store cache0 t0 p := by
  unfold enrichWhatsAppPayload
  cases hc : cacheLookup cache0 p.chatId with
  | none => rfl
  | some c =>
    have h1 : ¬ t0 < c.expires := Nat.not_lt.mpr (hstale c hc)
    simp [h1]

theorem enrichMiss_cache (store : LookupStore) (cache : List (String × CacheEntry))
    (now : Nat) (payload : EnrichPayload) :
    ∃ c, (enrichMiss store cache now payload).2 = cacheSet cache payload.chatId c ∧
      c.expires = now + 60000 :=
  ⟨_, rfl, rfl⟩

theorem enrichMiss_no_user (store : LookupStore) (cache : List (String × CacheEntry))
    (now : Nat) (payload : EnrichPayload)
    (hnouser : store.usuariosPorIdentidad payload.chatId = none)
    (hnophone : ∀ np, normalizePhone payload.telefono = some np →
      store.usuariosPorTelefono np = none) :
    (enrichMiss store cache now payload).1.profileReady = false ∧
      (enrichMiss store cache now payload).1.firstInSession = true ∧
      (enrichMiss store cache now payload).2 = cacheSet cache payload.chatId
        { tiendaId := store.tiendasPorSlug payload.tiendaSlug, usuarioId := none,
          slug := payload.tiendaSlug, sessionStartTs := now, expires := now + 60000 } := by
  cases hnp : normalizePhone payload.telefono with
  | none => refine ⟨?_, ?_, ?_⟩ <;> simp [enrichMiss, hnouser, hnp]
  | some np =>
    have h2 := hnophone np hnp
    refine ⟨?_, ?_, ?_⟩ <;> simp [enrichMiss, hnouser, hnp, h2]

theorem enrich_hit (store : LookupStore) (cache : List (String × CacheEntry))
    (now : Nat) (payload : EnrichPayload) (c : CacheEntry)
    (hlook : cacheLookup cache payload.chatId = some c) (hlt : now < c.expires) :
    enrichWhatsAppPayload store cache now payload =
      ({ payload with
          tiendaId := c.tiendaId
          usuarioId := some c.usuarioId
          slugField := c.slug
          sessionStartTs := c.sessionStartTs
          expiresField := some c.expires
          profileReady := true
          firstInSession := false
          metaProfileReady := true
          metaFirstInSession := false }, cache) := by
  unfold enrichWhatsAppPayload
  rw [hlook]
  simp [hlt]

theorem enrich_miss_expired (store : LookupStore) (cache : List (String × CacheEntry))
    (now : Nat) (payload : EnrichPayload) (c : CacheEntry)
    (hlook : cacheLookup cache payload.chatId = some c) (hge : ¬ now < c.expires) :
    enrichWhatsAppPayload store cache now payload = enrichMiss store cache now payload := by
  unfold enrichWhatsAppPayload
  rw [hlook]
  simp [hge]

/-- C7: two enrichment calls for the same conversation id — after a first
call that resolves from the store (no live cached entry), the resolved tuple
is stored with absolute expiry `now + 60_000`, unconditionally overwriting
any prior entry for the conversation id; a second call strictly within 60
seconds is answered from the cached entry with `profileReady = true` and
`firstInSession = false` (also in the `meta` block, whatever the session
index says) and leaves the cache untouched, while a call more than 60
seconds after the entry was stored misses the cache and re-resolves tenant,
user and session data from the store. -/
theorem c7_cache_ttl (store : LookupStore) (cache0 : List (String × CacheEntry))
    (p q : EnrichPayload) (t0 t1 : Nat)
    (hchat : q.chatId = p.chatId)
    (hstale : ∀ c, cacheLookup cache0 p.chatId = some c → c.expires ≤ t0) :
    (∃ c, cacheLookup (enrichWhatsAppPayload store cache0 t0 p).2 p.chatId = some c ∧
        c.expires = t0 + 60000) ∧
      (t1 < t0 + 60000 →
        (enrichWhatsAppPayload store (enrichWhatsAppPayload store cache0 t0 p).2
            t1 q).1.profileReady = true ∧
        (enrichWhatsAppPayload store (enrichWhatsAppPayload store cache0 t0 p).2
            t1 q).1.firstInSession = false ∧
        (enrichWhatsAppPayload store (enrichWhatsAppPayload store cache0 t0 p).2
            t1 q).1.metaProfileReady = true ∧
        (enrichWhatsAppPayload store (enrichWhatsAppPayload store cache0 t0 p).2
            t1 q).1.metaFirstInSession = false ∧
        (enrichWhatsAppPayload store (enrichWhatsAppPayload store cache0 t0 p).2
            t1 q).2 = (enrichWhatsAppPayload store cache0 t0 p).2) ∧
      (t0 + 60000 < t1 →
        enrichWhatsAppPayload store (enrichWhatsAppPayload store cache0 t0 p).2 t1 q =
          enrichMiss store (enrichWhatsAppPayload store cache0 t0 p).2 t1 q) := by
  have hmiss := c7_first_call_miss store cache0 t0 p hstale
  obtain ⟨c, hc2, hcexp⟩ := enrichMiss_cache store cache0 t0 p
  have hr12 : (enrichWhatsAppPayload store cache0 t0 p).2 = cacheSet cache0 p.chatId c := by
    rw [hmiss, hc2]
  have hlook : cacheLookup (enrichWhatsAppPayload store cache0 t0 p).2 q.chatId = some c := by
    rw [hr12, hchat]
    exact cacheLookup_cacheSet_self cache0 p.chatId c
  refine ⟨⟨c, ?_, hcexp⟩, ?_, ?_⟩
  · rw [hr12]
    exact cacheLookup_cacheSet_self cache0 p.chatId c
  · intro ht
    have hlt : t1 < c.expires := by rw [hcexp]; exact ht
    rw [enrich_hit store _ t1 q c hlook hlt]
    exact ⟨rfl, rfl, rfl, rfl, rfl⟩
  · intro ht
    have hge : ¬ t1 < c.expires := by
      rw [hcexp]; exact Nat.not_lt.mpr (Nat.le_of_lt ht)
    exact enrich_miss_expired store _ t1 q c hlook hge

/-- A lookup store with a known tenant and user and no session index yet. -/
def lkStore : LookupStore :=
  { tiendasPorSlug := fun _ => some "t1"
    usuariosPorIdentidad := fun _ => some "u1"
    usuariosPorTelefono := fun _ => none
    sesionesIndex := fun _ _ => none }

/-- A lookup store in which no user resolves by identity or by phone. -/
def lkStoreNoUser : LookupStore :=
  { tiendasPorSlug := fun _ => some "t1"
    usuariosPorIdentidad := fun _ => none
    usuariosPorTelefono := fun _ => none
    sesionesIndex := fun _ _ => none }

/-- The base payload of an inbound web chat, before enrichment. -/
def basePayload : EnrichPayload :=
  { chatId := "web_18095551234", tiendaSlug := "tienda1", telefono := some "18095551234"
    tiendaId := none, usuarioId := none, slugField := "tienda1"
    profileReady := false, firstInSession := false, sessionStartTs := 0
    expiresField := none, metaProfileReady := false, metaFirstInSession := false }

/-- Witness for C7: a second call 100 ms after the first is served from the
cache with `profileReady = true`, `firstInSession = false`, even though the
store has no session index. -/
theorem c7_cache_ttl_witness :
    (enrichWhatsAppPayload lkStore (enrichWhatsAppPayload lkStore [] 100 basePayload).2
        200 basePayload).1.profileReady = true ∧
      (enrichWhatsAppPayload lkStore (enrichWhatsAppPayload lkStore [] 100 basePayload).2
        200 basePayload).1.firstInSession = false := by
  have h := c7_cache_ttl lkStore [] basePayload basePayload 100 200 rfl
    (fun c hc => by simp [cacheLookup] at hc)
  have h2 := h.2.1 (by norm_num)
  exact ⟨h2.1, h2.2.1⟩

/-- C10: when a resolve finds no user (identity and phone lookups both
miss), the first call returns `profileReady = false` and `firstInSession =
true`, the null user id is cached, and every resolve for the same
conversation id within the next 60 seconds returns `profileReady = true`
while the payload carries the null `usuarioId` copied from the cached entry
(`Object.assign` materialises the key with value null). -/
theorem c10_null_user_cached (store : LookupStore) (cache0 : List (String × CacheEntry))
    (p q : EnrichPayload) (t0 t1 : Nat)
    (hchat : q.chatId = p.chatId)
    (hstale : ∀ c, cacheLookup cache0 p.chatId = some c → c.expires ≤ t0)
    (hnouser : store.usuariosPorIdentidad p.chatId = none)
    (hnophone : ∀ np, normalizePhone p.telefono = some np →
      store.usuariosPorTelefono np = none)
    (hfresh : t1 < t0 + 60000) :
    (enrichWhatsAppPayload store cache0 t0 p).1.profileReady = false ∧
      (enrichWhatsAppPayload store cache0 t0 p).1.firstInSession = true ∧
      (∃ c, cacheLookup (enrichWhatsAppPayload store cache0 t0 p).2 p.chatId = some c ∧
        c.usuarioId = none) ∧
      (enrichWhatsAppPayload store (enrichWhatsAppPayload store cache0 t0 p).2
          t1 q).1.profileReady = true ∧
      (enrichWhatsAppPayload store (enrichWhatsAppPayload store cache0 t0 p).2
          t1 q).1.usuarioId = some none := by
  have hmiss := c7_first_call_miss store cache0 t0 p hstale
  have hnou := enrichMiss_no_user store cache0 t0 p hnouser hnophone
  set centry : CacheEntry :=
    { tiendaId := store.tiendasPorSlug p.tiendaSlug, usuarioId := none,
      slug := p.tiendaSlug, sessionStartTs := t0, expires := t0 + 60000 } with hcdef
  have hr12 : (enrichWhatsAppPayload store cache0 t0 p).2 =
      cacheSet cache0 p.chatId centry := by
    rw [hmiss, hnou.2.2]
  have hlook : cacheLookup (enrichWhatsAppPayload store cache0 t0 p).2 q.chatId =
      some centry := by
    rw [hr12, hchat]
    exact cacheLookup_cacheSet_self cache0 p.chatId centry
  have hlt : t1 < centry.expires := by simp [hcdef]; exact hfresh
  refine ⟨by rw [hmiss]; exact hnou.1, by rw [hmiss]; exact hnou.2.1,
    ⟨centry, by rw [hr12]; exact cacheLookup_cacheSet_self cache0 p.chatId centry,
      by simp [hcdef]⟩, ?_, ?_⟩
  · rw [enrich_hit store _ t1 q centry hlook hlt]
  · rw [enrich_hit store _ t1 q centry hlook hlt]

/-- Witness for C10: a concrete no-user store — first call reports the
profile not ready, the second call (100 ms later) reports it ready while
carrying a present-but-null user id. -/
theorem c10_null_user_cached_witness :
    (enrichWhatsAppPayload lkStoreNoUser [] 100 basePayload).1.profileReady = false ∧
      (enrichWhatsAppPayload lkStoreNoUser
        (enrichWhatsAppPayload lkStoreNoUser [] 100 basePayload).2
          200 basePayload).1.profileReady = true ∧
      (enrichWhatsAppPayload lkStoreNoUser
        (enrichWhatsAppPayload lkStoreNoUser [] 100 basePayload).2
          200 basePayload).1.usuarioId = some none := by
  have h := c10_null_user_cached lkStoreNoUser [] basePayload basePayload 100 200 rfl
    (fun c hc => by simp [cacheLookup] at hc) rfl (fun np _ => rfl) (by norm_num)
  exact ⟨h.1, h.2.2.2.1, h.2.2.2.2⟩

end WhatsappService
